import Mathlib

/-!
# Formal model of the Explorer Polars NIF boundary layer

This file gives a shallow embedding of the marshalling core found in
`src/native/explorer/src/datatypes.rs` and `src/native/explorer/src/lazyframe.rs`
and proves the frozen claims about it.

Modelling conventions:

* Rust machine integers (`i32`, `i64`, `u32`, `u8`) are modelled as `Int` or `Nat`;
  where an overflow check or a fallible narrowing (`try_into`) matters it is made
  explicit (`try_into_i32`, `num_microseconds`).
* Rust `/` and `%` on signed integers truncate toward zero; they are modelled with
  `Int.tdiv` and `Int.tmod`.  Rust `div_euclid` and `rem_euclid` (used by chrono
  internally) are modelled with `Int.ediv` and `Int.emod`.
* A Rust `unwrap` of a `None` is a panic; functions whose only failure mode is a
  panic are modelled with `PanicResult`, where `PanicResult.panicked` marks the
  panic and is distinct from any typed error value.
* The chrono calendar functions (`NaiveDate::from_ymd_opt`, day arithmetic,
  `NaiveDateTime::from_timestamp_opt`, field accessors) are external collaborators
  of the repository; the spec fixes their interface as the proleptic Gregorian
  calendar over the Unix epoch.  They are modelled here as total functions on that
  calendar; the finite year capacity of chrono (about plus or minus 262000 years)
  appears only through the explicit range hypotheses of the theorems, not as a
  hard bound inside the model.
-/

/-! ## The proleptic Gregorian calendar

`CivilDate` models `chrono::NaiveDate` extensionally as its calendar fields.
`days_to_date` models `polars::export::arrow::temporal_conversions::date32_to_date`
(re-exported by `datatypes.rs` as `days_to_date`), which is
`epoch 1970-01-01 plus n days` in the proleptic Gregorian calendar; it is defined
here literally as iterated day stepping from the epoch.  `dateToDays` is the
closed form for the signed day distance from the epoch, which is what
`NaiveDate::signed_duration_since(epoch).num_days()` computes.
-/

structure CivilDate where
  year : Int
  month : Int
  day : Int
deriving DecidableEq

/-- Proleptic Gregorian leap year rule (chrono uses exactly this rule).
On `Int`, `%` is Euclidean `emod`, so `y % 4 = 0` means `4 ∣ y` for every sign of `y`. -/
def isLeapYear (y : Int) : Bool :=
  decide ((y % 4 = 0 ∧ ¬ y % 100 = 0) ∨ y % 400 = 0)

/-- Length of a month in the proleptic Gregorian calendar. -/
def daysInMonth (y m : Int) : Int :=
  if m = 2 then (if isLeapYear y then 29 else 28)
  else if m = 4 ∨ m = 6 ∨ m = 9 ∨ m = 11 then 30
  else 31

/-- Cumulative days before month `m` in a non-leap year. -/
def daysBeforeMonthBase (m : Int) : Int :=
  if m ≤ 1 then 0 else if m = 2 then 31 else if m = 3 then 59 else if m = 4 then 90
  else if m = 5 then 120 else if m = 6 then 151 else if m = 7 then 181
  else if m = 8 then 212 else if m = 9 then 243 else if m = 10 then 273
  else if m = 11 then 304 else 334

/-- Cumulative days before month `m` of year `y`. -/
def daysBeforeMonth (y m : Int) : Int :=
  daysBeforeMonthBase m + (if 2 < m ∧ isLeapYear y = true then 1 else 0)

/-- Number of proleptic Gregorian leap years in `[1, y-1]`, extended to all
integers by floor division (on `Int`, `/` is Euclidean division, which is floor
division for the positive divisors used here). -/
def leapYearsBefore (y : Int) : Int :=
  (y - 1) / 4 - (y - 1) / 100 + (y - 1) / 400

/-- Days from 1970-01-01 to the first day of year `y` (signed). -/
def daysFromYear (y : Int) : Int :=
  365 * (y - 1970) + (leapYearsBefore y - leapYearsBefore 1970)

/-- Signed day distance of a calendar date from 1970-01-01; this is what
`NaiveDate::signed_duration_since(1970-01-01).num_days()` returns. -/
def dateToDays (d : CivilDate) : Int :=
  daysFromYear d.year + daysBeforeMonth d.year d.month + (d.day - 1)

/-- A calendar field combination that `NaiveDate::from_ymd_opt` accepts. -/
def ValidDate (d : CivilDate) : Prop :=
  1 ≤ d.month ∧ d.month ≤ 12 ∧ 1 ≤ d.day ∧ d.day ≤ daysInMonth d.year d.month

instance : DecidablePred ValidDate := fun d => by
  unfold ValidDate; infer_instance

def epochDate : CivilDate := ⟨1970, 1, 1⟩

/-- Successor day in the proleptic Gregorian calendar. -/
def nextDay (d : CivilDate) : CivilDate :=
  if d.day < daysInMonth d.year d.month then ⟨d.year, d.month, d.day + 1⟩
  else if d.month < 12 then ⟨d.year, d.month + 1, 1⟩
  else ⟨d.year + 1, 1, 1⟩

/-- Predecessor day in the proleptic Gregorian calendar. -/
def prevDay (d : CivilDate) : CivilDate :=
  if 1 < d.day then ⟨d.year, d.month, d.day - 1⟩
  else if 1 < d.month then ⟨d.year, d.month - 1, daysInMonth d.year (d.month - 1)⟩
  else ⟨d.year - 1, 12, 31⟩

/-- Model of `days_to_date` (arrow `date32_to_date`): the epoch date advanced by
`n` days in the proleptic Gregorian calendar. -/
def days_to_date (n : Int) : CivilDate :=
  match n with
  | .ofNat k => nextDay^[k] epochDate
  | .negSucc k => prevDay^[k + 1] epochDate

theorem leapYearsBefore_succ (y : Int) :
    leapYearsBefore (y + 1) = leapYearsBefore y + (if isLeapYear y = true then 1 else 0) := by
  unfold leapYearsBefore isLeapYear
  simp only [add_sub_cancel_right, decide_eq_true_eq]
  split_ifs with h
  · omega
  · omega

theorem daysFromYear_succ (y : Int) :
    daysFromYear (y + 1) = daysFromYear y + 365 + (if isLeapYear y = true then 1 else 0) := by
  unfold daysFromYear
  rw [leapYearsBefore_succ]
  split_ifs <;> ring

theorem daysInMonth_pos (y m : Int) : 1 ≤ daysInMonth y m := by
  unfold daysInMonth
  split_ifs <;> norm_num

theorem daysInMonth_le (y m : Int) : daysInMonth y m ≤ 31 := by
  unfold daysInMonth
  split_ifs <;> norm_num

theorem daysBeforeMonth_succ (y m : Int) (h1 : 1 ≤ m) (h2 : m ≤ 11) :
    daysBeforeMonth y (m + 1) = daysBeforeMonth y m + daysInMonth y m := by
  interval_cases m <;>
    · by_cases hL : isLeapYear y = true <;>
        simp [daysBeforeMonth, daysBeforeMonthBase, daysInMonth, hL]

theorem dateToDays_nextDay (d : CivilDate) (h : ValidDate d) :
    dateToDays (nextDay d) = dateToDays d + 1 := by
  obtain ⟨h1, h2, h3, h4⟩ := h
  unfold nextDay
  split_ifs with hd hm
  · unfold dateToDays
    dsimp only
    omega
  · have hde : d.day = daysInMonth d.year d.month := le_antisymm h4 (not_lt.mp hd)
    have hstep := daysBeforeMonth_succ d.year d.month h1 (by omega)
    unfold dateToDays
    dsimp only
    omega
  · have hm12 : d.month = 12 := by omega
    have hde : d.day = daysInMonth d.year d.month := le_antisymm h4 (not_lt.mp hd)
    have hy := daysFromYear_succ d.year
    have hdim : daysInMonth d.year 12 = 31 := by
      unfold daysInMonth; norm_num
    unfold dateToDays
    dsimp only
    rw [hm12] at hde ⊢
    rw [hdim] at hde
    unfold daysBeforeMonth daysBeforeMonthBase
    norm_num
    split_ifs at hy ⊢ <;> omega

theorem validDate_nextDay (d : CivilDate) (h : ValidDate d) : ValidDate (nextDay d) := by
  obtain ⟨h1, h2, h3, h4⟩ := h
  unfold nextDay
  split_ifs with hd hm
  · exact ⟨h1, h2, by dsimp only; omega, by dsimp only; omega⟩
  · exact ⟨by dsimp only; omega, by dsimp only; omega, by dsimp only; norm_num, by
      dsimp only; exact daysInMonth_pos d.year (d.month + 1)⟩
  · exact ⟨by dsimp only; norm_num, by dsimp only; norm_num, by dsimp only; norm_num, by
      dsimp only; exact daysInMonth_pos (d.year + 1) 1⟩

theorem dateToDays_prevDay (d : CivilDate) (h : ValidDate d) :
    dateToDays (prevDay d) = dateToDays d - 1 := by
  obtain ⟨h1, h2, h3, h4⟩ := h
  unfold prevDay
  split_ifs with hd hm
  · unfold dateToDays
    dsimp only
    omega
  · have hstep := daysBeforeMonth_succ d.year (d.month - 1) (by omega) (by omega)
    have hm' : d.month - 1 + 1 = d.month := by omega
    rw [hm'] at hstep
    have hd1 : d.day = 1 := by omega
    unfold dateToDays
    dsimp only
    omega
  · have hm1 : d.month = 1 := by omega
    have hd1 : d.day = 1 := by omega
    have hy := daysFromYear_succ (d.year - 1)
    have hy' : d.year - 1 + 1 = d.year := by omega
    rw [hy'] at hy
    unfold dateToDays
    dsimp only
    rw [hm1]
    unfold daysBeforeMonth daysBeforeMonthBase
    norm_num
    split_ifs at hy ⊢ <;> omega

theorem validDate_prevDay (d : CivilDate) (h : ValidDate d) : ValidDate (prevDay d) := by
  obtain ⟨h1, h2, h3, h4⟩ := h
  unfold prevDay
  split_ifs with hd hm
  · exact ⟨h1, h2, by dsimp only; omega, by dsimp only; omega⟩
  · exact ⟨by dsimp only; omega, by dsimp only; omega, by
      dsimp only; exact daysInMonth_pos d.year (d.month - 1), by dsimp only; exact le_refl _⟩
  · refine ⟨by dsimp only; norm_num, by dsimp only; norm_num, by dsimp only; norm_num, ?_⟩
    dsimp only
    unfold daysInMonth
    norm_num

theorem nextDay_iterate_spec (k : Nat) :
    ValidDate (nextDay^[k] epochDate) ∧ dateToDays (nextDay^[k] epochDate) = (k : Int) := by
  induction k with
  | zero =>
    refine ⟨by decide, by decide⟩
  | succ k ih =>
    rw [Function.iterate_succ_apply']
    refine ⟨validDate_nextDay _ ih.1, ?_⟩
    rw [dateToDays_nextDay _ ih.1, ih.2]
    push_cast
    ring

theorem prevDay_iterate_spec (k : Nat) :
    ValidDate (prevDay^[k] epochDate) ∧ dateToDays (prevDay^[k] epochDate) = -(k : Int) := by
  induction k with
  | zero =>
    refine ⟨by decide, by decide⟩
  | succ k ih =>
    rw [Function.iterate_succ_apply']
    refine ⟨validDate_prevDay _ ih.1, ?_⟩
    rw [dateToDays_prevDay _ ih.1, ih.2]
    push_cast
    ring

theorem days_to_date_spec (n : Int) :
    ValidDate (days_to_date n) ∧ dateToDays (days_to_date n) = n := by
  cases n with
  | ofNat k =>
    simpa [days_to_date] using nextDay_iterate_spec k
  | negSucc k =>
    have h := prevDay_iterate_spec (k + 1)
    refine ⟨h.1, ?_⟩
    rw [days_to_date, h.2, Int.negSucc_eq]
    push_cast
    ring

/-! ## The `ExDate` codec (`impl From<i32> for ExDate`, `impl From<ExDate> for i32`)

`ExDate` mirrors the Rust struct field for field (the `calendar` atom is modelled
as the atom text).  The inverse direction in the source is
`NaiveDate::from_ymd_opt(d.year, d.month, d.day).unwrap()
  .signed_duration_since(epoch).num_days().try_into().unwrap()`:
both `unwrap`s are panics, modelled by `PanicResult.panicked`.
-/

inductive PanicResult (α : Type) where
  | ok (value : α)
  | panicked
deriving DecidableEq

structure ExDate where
  calendar : String
  day : Int
  month : Int
  year : Int
deriving DecidableEq

def calendar_iso_module : String := "Elixir.Calendar.ISO"

/-- Model of `NaiveDate::from_ymd_opt`: `some` exactly on valid proleptic
Gregorian field combinations, `none` otherwise (never normalizes). -/
def from_ymd_opt (y m d : Int) : Option CivilDate :=
  if ValidDate ⟨y, m, d⟩ then some ⟨y, m, d⟩ else none

/-- Model of the `i64 -> i32` `try_into().unwrap()`: a panic outside `i32` range. -/
def try_into_i32 (z : Int) : PanicResult Int :=
  if -(2 ^ 31) ≤ z ∧ z < 2 ^ 31 then .ok z else .panicked

/-- Model of `impl From<i32> for ExDate`: `days_to_date(ts).into()`. -/
def ex_date_from_days (n : Int) : ExDate :=
  ⟨calendar_iso_module, (days_to_date n).day, (days_to_date n).month, (days_to_date n).year⟩

/-- Model of `impl From<ExDate> for i32`. -/
def ex_date_to_days (d : ExDate) : PanicResult Int :=
  match from_ymd_opt d.year d.month d.day with
  | some cd => try_into_i32 (dateToDays cd - dateToDays epochDate)
  | none => .panicked

/-- Day counts whose calendar date chrono can represent
(`NaiveDate::MIN = -262144-01-01` to `NaiveDate::MAX = 262143-12-31`). -/
def minDayCount : Int := dateToDays ⟨-262144, 1, 1⟩

def maxDayCount : Int := dateToDays ⟨262143, 12, 31⟩

def dayCountInRange (n : Int) : Prop := minDayCount ≤ n ∧ n ≤ maxDayCount

instance (n : Int) : Decidable (dayCountInRange n) := by
  unfold dayCountInRange; infer_instance

/-- Claim C4: for every in-range signed 32-bit day count `n`, converting `n` to an
`ExDate` and back returns `n`: the date codec round-trips losslessly. -/
theorem date_codec_roundtrip (n : Int) (h : dayCountInRange n) :
    ex_date_to_days (ex_date_from_days n) = .ok n := by
  obtain ⟨hv, he⟩ := days_to_date_spec n
  have hmin : minDayCount = -96465658 := by decide
  have hmax : maxDayCount = 95026601 := by decide
  have heta : (⟨(days_to_date n).year, (days_to_date n).month, (days_to_date n).day⟩ :
      CivilDate) = days_to_date n := rfl
  unfold ex_date_to_days ex_date_from_days from_ymd_opt
  dsimp only
  rw [heta, if_pos hv]
  show try_into_i32 (dateToDays (days_to_date n) - dateToDays epochDate) = .ok n
  have hepoch : dateToDays epochDate = 0 := by decide
  rw [he, hepoch]
  have hrange : -(2 ^ 31) ≤ n - 0 ∧ n - 0 < 2 ^ 31 := by
    unfold dayCountInRange at h
    omega
  unfold try_into_i32
  rw [if_pos hrange]
  norm_num

/-- Witness for C4 at the concrete in-range day count `0`. -/
theorem date_codec_roundtrip_witness :
    dayCountInRange 0 ∧ ex_date_to_days (ex_date_from_days 0) = .ok 0 :=
  ⟨by decide, date_codec_roundtrip 0 (by decide)⟩

/-- Counterexample for claim C5: converting the impossible date 1970-04-31
(day 31 in a 30-day month) panics on the `unwrap` of the rejected construction;
the failure is not a typed, recoverable error value (the implementation has no
error channel at all: its Rust return type is a bare `i32`), and the conversion
never returns a silently normalized day count. -/
theorem date_invalid_counterexample :
    ex_date_to_days ⟨calendar_iso_module, 31, 4, 1970⟩ = .panicked ∧
    ∀ z : Int, ex_date_to_days ⟨calendar_iso_module, 31, 4, 1970⟩ ≠ .ok z := by
  have h : ex_date_to_days ⟨calendar_iso_module, 31, 4, 1970⟩ = .panicked := by decide
  refine ⟨h, fun z hz => ?_⟩
  rw [h] at hz
  exact PanicResult.noConfusion hz

/-- Claim C5 (amended): the inverse date conversion rejects every impossible
calendar field combination: the calendar construction (`from_ymd_opt`) yields a
construction error and the conversion never silently normalizes (it never
returns a day count for an impossible date); however the failure surfaces as an
`unwrap` panic, not as a typed recoverable error value. -/
theorem date_invalid_never_normalized (y m d : Int)
    (h : ¬ ValidDate ⟨y, m, d⟩) :
    from_ymd_opt y m d = none ∧
    ex_date_to_days ⟨calendar_iso_module, d, m, y⟩ = .panicked := by
  have hnone : from_ymd_opt y m d = none := by
    unfold from_ymd_opt
    rw [if_neg h]
  refine ⟨hnone, ?_⟩
  unfold ex_date_to_days
  dsimp only
  rw [hnone]

/-- Witness for the amended C5 at the concrete impossible date 1970-04-31. -/
theorem date_invalid_never_normalized_witness :
    ¬ ValidDate ⟨1970, 4, 31⟩ ∧
      ex_date_to_days ⟨calendar_iso_module, 31, 4, 1970⟩ = .panicked :=
  ⟨by decide, (date_invalid_never_normalized 1970 4 31 (by decide)).2⟩

/-! ## The datetime codec (`timestamp_to_datetime`, `ExDateTime`)

`NaiveDateTime` models `chrono::NaiveDateTime` as a calendar date plus the
second of the day (`[0, 86400)`) and the nanosecond fraction (`[0, 2e9)`,
values at or above `1e9` are the chrono leap-second representation).
`from_timestamp` models `NaiveDateTime::from_timestamp_opt` in its defined
range: chrono splits the second count with Euclidean division (`div_euclid`
and `rem_euclid`, here `/` and `%` on `Int`) and keeps the nanosecond argument
as the fraction.  The field accessors `hour`, `minute`, `second` and
`timestamp_subsec_micros` are as in chrono: `secs / 3600`, `secs % 3600 / 60`,
`secs % 60` and `frac / 1000`.
-/

structure NaiveDateTime where
  date : CivilDate
  secsOfDay : Int
  nanoFrac : Int
deriving DecidableEq

/-- Model of `NaiveDateTime::from_timestamp_opt(secs, nsecs)` in its `Some` range. -/
def from_timestamp (secs nsecs : Int) : NaiveDateTime :=
  ⟨days_to_date (secs / 86400), secs % 86400, nsecs⟩

/-- The whole-seconds component computed by `timestamp_to_datetime`
(`datatypes.rs` lines 220-224): Rust `/` truncates toward zero (`Int.tdiv`),
and the `-1` adjustment is applied whenever `microseconds.signum() == -1`. -/
def timestamp_seconds (microseconds : Int) : Int :=
  if microseconds.sign = -1 then microseconds.tdiv 1000000 - 1
  else microseconds.tdiv 1000000

/-- The sub-second remainder computed by `timestamp_to_datetime`
(`datatypes.rs` lines 225-228): Rust `%` keeps the dividend sign (`Int.tmod`). -/
def timestamp_remainder (microseconds : Int) : Int :=
  if microseconds.sign = -1 then 1000000 + microseconds.tmod 1000000
  else microseconds.tmod 1000000

/-- Model of `timestamp_to_datetime`: nanoseconds are `remainder.abs() * 1000`. -/
def timestamp_to_datetime (microseconds : Int) : NaiveDateTime :=
  from_timestamp (timestamp_seconds microseconds) (|timestamp_remainder microseconds| * 1000)

structure ExDateTime where
  calendar : String
  day : Int
  month : Int
  year : Int
  hour : Int
  minute : Int
  second : Int
  microsecond : Int × Int
deriving DecidableEq

/-- Model of `microseconds_six_digits` (`datatypes.rs` lines 236-242). -/
def microseconds_six_digits (microseconds : Int) : Int :=
  if microseconds > 999999 then 999999 else microseconds

/-- Model of `impl From<NaiveDateTime> for ExDateTime` (`datatypes.rs` 279-292):
each field is read off through the chrono accessors, and the sub-second value is
`(microseconds_six_digits(dt.timestamp_subsec_micros()), 6)`. -/
def ex_datetime_from_naive (dt : NaiveDateTime) : ExDateTime :=
  ⟨calendar_iso_module, dt.date.day, dt.date.month, dt.date.year,
    dt.secsOfDay / 3600, dt.secsOfDay % 3600 / 60, dt.secsOfDay % 60,
    (microseconds_six_digits (dt.nanoFrac / 1000), 6)⟩

/-- Model of `impl From<i64> for ExDateTime`: `timestamp_to_datetime(us).into()`. -/
def ex_datetime_from_micros (microseconds : Int) : ExDateTime :=
  ex_datetime_from_naive (timestamp_to_datetime microseconds)

/-- Field combinations accepted by `NaiveDate::and_hms_micro_opt`: the
microsecond part may reach `1_999_999` (chrono leap-second representation). -/
def AndHmsMicroValid (hour minute second micro : Int) : Prop :=
  0 ≤ hour ∧ hour ≤ 23 ∧ 0 ≤ minute ∧ minute ≤ 59 ∧
    0 ≤ second ∧ second ≤ 59 ∧ 0 ≤ micro ∧ micro ≤ 1999999

instance (hour minute second micro : Int) :
    Decidable (AndHmsMicroValid hour minute second micro) := by
  unfold AndHmsMicroValid; infer_instance

def I64_MIN : Int := -(2 ^ 63)

def I64_MAX : Int := 2 ^ 63 - 1

/-- Model of `chrono::Duration::num_microseconds` on the exact microsecond value
of the duration: `none` exactly when the count overflows a signed 64-bit integer. -/
def num_microseconds (us : Int) : Option Int :=
  if I64_MIN ≤ us ∧ us ≤ I64_MAX then some us else none

/-- Model of `chrono::Duration::num_milliseconds` on the exact microsecond value
of the duration: whole milliseconds, truncated toward zero. -/
def num_milliseconds_of_micros (us : Int) : Int :=
  us.tdiv 1000

/-- The `match duration.num_microseconds() { Some(us) => us, None => ms * 1000 }`
expression of `impl From<ExDateTime> for i64` (`datatypes.rs` lines 263-266). -/
def duration_to_i64_micros (us : Int) : Int :=
  match num_microseconds us with
  | some v => v
  | none => num_milliseconds_of_micros us * 1000

/-- Exact signed microsecond distance from the epoch of the datetime built by
`from_ymd_opt(year, month, day).and_hms_micro_opt(hour, minute, second, micro)`;
this is the value of the `signed_duration_since` call in the source (chrono
subtracts the stored seconds and fractions literally). -/
def ex_datetime_exact_micros (dt : ExDateTime) : Int :=
  dateToDays ⟨dt.year, dt.month, dt.day⟩ * 86400000000 +
    (dt.hour * 3600 + dt.minute * 60 + dt.second) * 1000000 + dt.microsecond.1

/-- Model of `impl From<ExDateTime> for i64` (`datatypes.rs` lines 250-268):
the two `unwrap`s on `from_ymd_opt` and `and_hms_micro_opt` are panics. -/
def ex_datetime_to_micros (dt : ExDateTime) : PanicResult Int :=
  match from_ymd_opt dt.year dt.month dt.day with
  | none => .panicked
  | some _ =>
    if AndHmsMicroValid dt.hour dt.minute dt.second dt.microsecond.1 then
      .ok (duration_to_i64_micros (ex_datetime_exact_micros dt))
    else .panicked

/-- Claim C1 (failing input): at `-1_000_000` microseconds the split computed by
`timestamp_to_datetime` is `seconds = -2`, `remainder = 1_000_000`: the sum
property `seconds * 1_000_000 + remainder = input` holds, but the remainder
falls outside `[0, 1_000_000)`, contradicting the claimed range for every
negative input. -/
theorem timestamp_split_bug :
    timestamp_seconds (-1000000) = -2 ∧
    timestamp_remainder (-1000000) = 1000000 ∧
    ¬ timestamp_remainder (-1000000) < 1000000 ∧
    timestamp_seconds (-1000000) * 1000000 + timestamp_remainder (-1000000) = -1000000 := by
  refine ⟨by decide, by decide, by decide, by decide⟩

/-- Claim C2: converting the microsecond count `-1` through the datetime codec
yields the calendar fields 1969-12-31 23:59:59 with sub-second value `999999`
and precision denominator `6`. -/
theorem micros_to_datetime_neg_one :
    ex_datetime_from_micros (-1) =
      ⟨calendar_iso_module, 31, 12, 1969, 23, 59, 59, (999999, 6)⟩ := by
  decide

/-- Claim C3 (failing input): the datetime codec does not round-trip at
`-1_000_000` microseconds.  The split produces `seconds = -2` with a nanosecond
argument of `1_000_000_000`, which chrono stores as a leap-second time whose
field accessors read 23:59:58 with `1_000_000` sub-second microseconds; after
the 6-digit clamp the host sees 1969-12-31 23:59:58.999999, and converting that
back yields `-1_000_001`, not `-1_000_000`. -/
theorem datetime_roundtrip_bug :
    ex_datetime_from_micros (-1000000) =
      ⟨calendar_iso_module, 31, 12, 1969, 23, 59, 58, (999999, 6)⟩ ∧
    ex_datetime_to_micros (ex_datetime_from_micros (-1000000)) = .ok (-1000001) := by
  refine ⟨by decide, by decide⟩

/-- Claim C6: every sub-second value exposed by the datetime codec carries
precision denominator `6`, never exceeds `999999`, and is a truncation (never a
rounding up) of the nanosecond fraction: `1000 * value ≤ nanoFrac`. -/
theorem subsecond_clamp_six_digits (dt : NaiveDateTime) :
    (ex_datetime_from_naive dt).microsecond.2 = 6 ∧
    (ex_datetime_from_naive dt).microsecond.1 ≤ 999999 ∧
    1000 * (ex_datetime_from_naive dt).microsecond.1 ≤ dt.nanoFrac := by
  unfold ex_datetime_from_naive microseconds_six_digits
  dsimp only
  refine ⟨rfl, ?_, ?_⟩ <;> split_ifs <;> omega

/-- Claim C8: for every `ExDateTime` whose fields pass the calendar and
time-of-day construction checks, the inverse conversion succeeds and returns
`duration_to_i64_micros` of the exact signed microsecond distance from the
epoch; that value equals the exact count whenever the count is representable at
microsecond resolution in a signed 64-bit integer, and otherwise falls back to
millisecond-resolution truncation scaled by `1000` (a multiple of `1000` within
one millisecond of the exact count). -/
theorem datetime_inverse_duration_fallback (dt : ExDateTime)
    (hymd : ValidDate ⟨dt.year, dt.month, dt.day⟩)
    (hhms : AndHmsMicroValid dt.hour dt.minute dt.second dt.microsecond.1) :
    ex_datetime_to_micros dt = .ok (duration_to_i64_micros (ex_datetime_exact_micros dt)) ∧
    (∀ us : Int, I64_MIN ≤ us → us ≤ I64_MAX → duration_to_i64_micros us = us) ∧
    (∀ us : Int, ¬ (I64_MIN ≤ us ∧ us ≤ I64_MAX) →
      duration_to_i64_micros us = us.tdiv 1000 * 1000 ∧
        (1000 : Int) ∣ duration_to_i64_micros us) := by
  refine ⟨?_, ?_, ?_⟩
  · unfold ex_datetime_to_micros from_ymd_opt
    rw [if_pos hymd]
    show (if AndHmsMicroValid dt.hour dt.minute dt.second dt.microsecond.1 then
        PanicResult.ok (duration_to_i64_micros (ex_datetime_exact_micros dt))
      else PanicResult.panicked) = _
    rw [if_pos hhms]
  · intro us h1 h2
    unfold duration_to_i64_micros num_microseconds
    rw [if_pos ⟨h1, h2⟩]
  · intro us h
    unfold duration_to_i64_micros num_microseconds num_milliseconds_of_micros
    rw [if_neg h]
    exact ⟨rfl, ⟨us.tdiv 1000, by ring⟩⟩

/-- Witness for C8 at the epoch datetime 1970-01-01 00:00:00.000000. -/
theorem datetime_inverse_duration_fallback_witness :
    ValidDate ⟨1970, 1, 1⟩ ∧ AndHmsMicroValid 0 0 0 0 ∧
      ex_datetime_to_micros ⟨calendar_iso_module, 1, 1, 1970, 0, 0, 0, (0, 6)⟩ =
        .ok (duration_to_i64_micros
          (ex_datetime_exact_micros ⟨calendar_iso_module, 1, 1, 1970, 0, 0, 0, (0, 6)⟩)) :=
  ⟨by decide, by decide,
    (datetime_inverse_duration_fallback ⟨calendar_iso_module, 1, 1, 1970, 0, 0, 0, (0, 6)⟩
      (by decide) (by decide)).1⟩

/-! ## The compression configuration mapper
(`impl TryFrom<ExParquetCompression> for ParquetCompression`)

The level constructors live in polars, outside this repository.
Modelled from the spec: the engine validates each optional level through its own
constructor for the algorithm; an out-of-range level yields a typed
configuration error carrying the algorithm name and the rejected value
(Gzip levels are valid in `0..=9`; Brotli in `0..=11`; Zstd in `1..=22`).
The `TryFrom` implementation itself (`datatypes.rs` lines 363-397) is modelled
statement for statement: `level.map(try_new)` followed by the `?` propagation
of the constructor error, with no clamping and no panic on any input.
-/

structure ConfigError where
  algorithm : String
  value : Int
deriving DecidableEq

structure BrotliLevel where
  level : Nat
deriving DecidableEq

structure GzipLevel where
  level : Nat
deriving DecidableEq

structure ZstdLevel where
  level : Int
deriving DecidableEq

/-- Modelled from the spec: polars `BrotliLevel::try_new`. -/
def brotli_try_new (level : Nat) : Except ConfigError BrotliLevel :=
  if level ≤ 11 then .ok ⟨level⟩ else .error ⟨"Brotli", (level : Int)⟩

/-- Modelled from the spec: polars `GzipLevel::try_new`; the valid range is 0-9. -/
def gzip_try_new (level : Nat) : Except ConfigError GzipLevel :=
  if level ≤ 9 then .ok ⟨level⟩ else .error ⟨"Gzip", (level : Int)⟩

/-- Modelled from the spec: polars `ZstdLevel::try_new`. -/
def zstd_try_new (level : Int) : Except ConfigError ZstdLevel :=
  if 1 ≤ level ∧ level ≤ 22 then .ok ⟨level⟩ else .error ⟨"Zstd", level⟩

/-- Model of the `ExParquetCompression` tagged enum (`datatypes.rs` 353-361);
Gzip levels cross the boundary as `u8`, Brotli as `u32`, Zstd as `i32`. -/
inductive ExParquetCompression where
  | brotli (level : Option Nat)
  | gzip (level : Option Nat)
  | lz4raw
  | snappy
  | uncompressed
  | zstd (level : Option Int)
deriving DecidableEq

/-- Model of polars `ParquetCompression` at the constructors this mapper uses. -/
inductive ParquetCompression where
  | brotli (level : Option BrotliLevel)
  | gzip (level : Option GzipLevel)
  | lz4Raw
  | snappy
  | uncompressed
  | zstd (level : Option ZstdLevel)
deriving DecidableEq

/-- Model of `impl TryFrom<ExParquetCompression> for ParquetCompression`
(`datatypes.rs` lines 363-397). -/
def try_from_ex_parquet_compression :
    ExParquetCompression → Except ConfigError ParquetCompression
  | .brotli levelOpt =>
    match levelOpt.map brotli_try_new with
    | some (.error e) => .error e
    | some (.ok l) => .ok (.brotli (some l))
    | none => .ok (.brotli none)
  | .gzip levelOpt =>
    match levelOpt.map gzip_try_new with
    | some (.error e) => .error e
    | some (.ok l) => .ok (.gzip (some l))
    | none => .ok (.gzip none)
  | .lz4raw => .ok .lz4Raw
  | .snappy => .ok .snappy
  | .uncompressed => .ok .uncompressed
  | .zstd levelOpt =>
    match levelOpt.map zstd_try_new with
    | some (.error e) => .error e
    | some (.ok l) => .ok (.zstd (some l))
    | none => .ok (.zstd none)

/-- Claim C7: for every byte-sized Gzip level, the configuration mapper returns
a typed error carrying the algorithm name and the rejected value whenever the
level is above the valid 0-9 range, and otherwise passes the level through
unchanged (no clamping); the mapper is a total function, so it never panics. -/
theorem parquet_compression_gzip_validation (level : Nat) (hbyte : level < 256) :
    (9 < level →
      try_from_ex_parquet_compression (.gzip (some level)) =
        .error ⟨"Gzip", (level : Int)⟩) ∧
    (level ≤ 9 →
      try_from_ex_parquet_compression (.gzip (some level)) =
        .ok (.gzip (some ⟨level⟩))) := by
  constructor
  · intro h
    have h9 : ¬ level ≤ 9 := by omega
    simp [try_from_ex_parquet_compression, gzip_try_new, h9]
  · intro h
    simp [try_from_ex_parquet_compression, gzip_try_new, h]

/-- Witness for C7 at the concrete out-of-range request Gzip level 10. -/
theorem parquet_compression_gzip_validation_witness :
    try_from_ex_parquet_compression (.gzip (some 10)) = .error ⟨"Gzip", (10 : Int)⟩ :=
  (parquet_compression_gzip_validation 10 (by decide)).1 (by decide)

/-! ## Lazy frame handles (`lazyframe.rs`, `ExLazyFrame`)

A `PolarsLazyFrame` is the unevaluated logical plan the engine builds; the
boundary operations only ever construct new plan nodes.  A `LazyFrameStore`
models the set of live `ResourceArc` cells: a handle is an index into it,
`clone_inner` models `ExLazyFrame::clone_inner` (a read of the interior value,
no mutation), and `new_handle` models `ExLazyFrame::new` (a fresh cell).  Each
boundary operation is a function from the store to the store: `lf_select`,
`lf_head` and `lf_filter_with` mirror `lazyframe.rs` lines 58-62, 30-34 and
76-82, and `lf_join` mirrors lines 177-207, where the join-method string is
matched before the engine join is invoked.
-/

inductive PolarsExpr where
  | node (id : Nat)
deriving DecidableEq

inductive JoinType where
  | left
  | inner
  | outer
  | cross
deriving DecidableEq

inductive PolarsLazyFrame where
  | scan (id : Nat)
  | select (lf : PolarsLazyFrame) (columns : List String)
  | limit (lf : PolarsLazyFrame) (n : Nat)
  | filter (lf : PolarsLazyFrame) (e : PolarsExpr)
  | join (lf other : PolarsLazyFrame) (leftOn rightOn : List PolarsExpr) (how : JoinType)
deriving DecidableEq

structure LazyFrameStore where
  frames : List PolarsLazyFrame
deriving DecidableEq

/-- Model of `ExLazyFrame::clone_inner`: read the interior value of a handle. -/
def clone_inner (s : LazyFrameStore) (h : Nat) : PolarsLazyFrame :=
  s.frames.getD h (.scan 0)

/-- Model of `ExLazyFrame::new`: allocate a fresh resource cell for a value and
hand back its handle; no existing cell is touched. -/
def new_handle (s : LazyFrameStore) (lf : PolarsLazyFrame) : LazyFrameStore × Nat :=
  (⟨s.frames ++ [lf]⟩, s.frames.length)

/-- Model of `lf_select`: clone the interior plan, derive, wrap in a new handle. -/
def lf_select (s : LazyFrameStore) (h : Nat) (columns : List String) :
    LazyFrameStore × Nat :=
  new_handle s (.select (clone_inner s h) columns)

/-- Model of `lf_head` (`limit`). -/
def lf_head (s : LazyFrameStore) (h : Nat) (length : Nat) : LazyFrameStore × Nat :=
  new_handle s (.limit (clone_inner s h) length)

/-- Model of `lf_filter_with`. -/
def lf_filter_with (s : LazyFrameStore) (h : Nat) (e : PolarsExpr) :
    LazyFrameStore × Nat :=
  new_handle s (.filter (clone_inner s h) e)

/-- Model of the join-method match at the top of `lf_join`
(`lazyframe.rs` lines 185-195). -/
def join_how_of_string (how : String) : Except String JoinType :=
  if how = "left" then .ok .left
  else if how = "inner" then .ok .inner
  else if how = "outer" then .ok .outer
  else if how = "cross" then .ok .cross
  else .error ("Join method " ++ how ++ " not supported")

/-- Model of `lf_join`: the method string is translated first and an unsupported
string returns the typed `ExplorerError::Other` message before any engine join
is constructed. -/
def lf_join (s : LazyFrameStore) (h other : Nat) (leftOn rightOn : List PolarsExpr)
    (how : String) : Except String (LazyFrameStore × Nat) :=
  match join_how_of_string how with
  | .error e => .error e
  | .ok jt =>
    .ok (new_handle s (.join (clone_inner s h) (clone_inner s other) leftOn rightOn jt))

theorem getD_append_lt (l l2 : List PolarsLazyFrame) (d : PolarsLazyFrame) (i : Nat)
    (hi : i < l.length) : (l ++ l2).getD i d = l.getD i d := by
  induction l generalizing i with
  | nil => simp at hi
  | cons x xs ih =>
    cases i with
    | zero => rfl
    | succ j =>
      simp only [List.cons_append, List.getD_cons_succ]
      exact ih j (by simpa using hi)

theorem getD_append_length (l : List PolarsLazyFrame) (a d : PolarsLazyFrame) :
    (l ++ [a]).getD l.length d = a := by
  induction l with
  | nil => rfl
  | cons x xs ih =>
    simp only [List.cons_append, List.length_cons, List.getD_cons_succ]
    exact ih

/-- Claim C9: the read-mostly boundary operations that derive a new lazy-frame
handle (`lf_select`, `lf_head`, `lf_filter_with`) leave the interior value of
every existing handle unchanged, allocate a handle that is fresh (it indexes
past every existing cell), and store under it the derived plan built from a
clone of the source interior value; the source handle remains usable. -/
theorem lf_handle_isolation (s : LazyFrameStore) (h h0 : Nat)
    (columns : List String) (n : Nat) (e : PolarsExpr)
    (h0lt : h0 < s.frames.length) :
    (clone_inner (lf_select s h columns).1 h0 = clone_inner s h0 ∧
      s.frames.length ≤ (lf_select s h columns).2 ∧
      clone_inner (lf_select s h columns).1 (lf_select s h columns).2 =
        .select (clone_inner s h) columns) ∧
    (clone_inner (lf_head s h n).1 h0 = clone_inner s h0 ∧
      s.frames.length ≤ (lf_head s h n).2 ∧
      clone_inner (lf_head s h n).1 (lf_head s h n).2 =
        .limit (clone_inner s h) n) ∧
    (clone_inner (lf_filter_with s h e).1 h0 = clone_inner s h0 ∧
      s.frames.length ≤ (lf_filter_with s h e).2 ∧
      clone_inner (lf_filter_with s h e).1 (lf_filter_with s h e).2 =
        .filter (clone_inner s h) e) := by
  unfold lf_select lf_head lf_filter_with new_handle clone_inner
  dsimp only
  refine ⟨⟨?_, le_refl _, ?_⟩, ⟨?_, le_refl _, ?_⟩, ⟨?_, le_refl _, ?_⟩⟩
  · exact getD_append_lt _ _ _ _ h0lt
  · exact getD_append_length _ _ _
  · exact getD_append_lt _ _ _ _ h0lt
  · exact getD_append_length _ _ _
  · exact getD_append_lt _ _ _ _ h0lt
  · exact getD_append_length _ _ _

/-- Witness for C9 on a one-handle store. -/
theorem lf_handle_isolation_witness :
    clone_inner (lf_select ⟨[.scan 7]⟩ 0 ["a"]).1 0 = clone_inner ⟨[.scan 7]⟩ 0 :=
  ((lf_handle_isolation ⟨[.scan 7]⟩ 0 0 ["a"] 5 (.node 1) (by decide)).1).1

/-- Claim C10: `lf_join` maps each of the four supported method strings to the
corresponding engine join type, and for every other string returns the typed
error naming the unsupported method without constructing any engine join; the
translation is a total function, so no string panics. -/
theorem lf_join_method_validation (s : LazyFrameStore) (h other : Nat)
    (leftOn rightOn : List PolarsExpr) (how : String)
    (hval : how ≠ "left" ∧ how ≠ "inner" ∧ how ≠ "outer" ∧ how ≠ "cross") :
    lf_join s h other leftOn rightOn how =
      .error ("Join method " ++ how ++ " not supported") ∧
    lf_join s h other leftOn rightOn "left" =
      .ok (new_handle s
        (.join (clone_inner s h) (clone_inner s other) leftOn rightOn .left)) ∧
    lf_join s h other leftOn rightOn "inner" =
      .ok (new_handle s
        (.join (clone_inner s h) (clone_inner s other) leftOn rightOn .inner)) ∧
    lf_join s h other leftOn rightOn "outer" =
      .ok (new_handle s
        (.join (clone_inner s h) (clone_inner s other) leftOn rightOn .outer)) ∧
    lf_join s h other leftOn rightOn "cross" =
      .ok (new_handle s
        (.join (clone_inner s h) (clone_inner s other) leftOn rightOn .cross)) := by
  obtain ⟨hL, hI, hO, hC⟩ := hval
  refine ⟨?_, rfl, rfl, rfl, rfl⟩
  unfold lf_join join_how_of_string
  rw [if_neg hL, if_neg hI, if_neg hO, if_neg hC]

/-- Witness for C10 at the concrete unsupported method string. -/
theorem lf_join_method_validation_witness :
    lf_join ⟨[.scan 7]⟩ 0 0 [] [] "fancy" =
      .error ("Join method " ++ "fancy" ++ " not supported") :=
  (lf_join_method_validation ⟨[.scan 7]⟩ 0 0 [] [] "fancy"
    ⟨by decide, by decide, by decide, by decide⟩).1
